import Mathlib

/-!
Shallow embedding of the send-eligibility and idempotency core of the
jobmation recruiting-outreach pipeline.

Source files embedded:
- src/src/mailer/rate_limiter.py    (RateLimiter.sent_today / can_send)
- src/src/main.py                   (candidate dedup, driver send loop)
- src/src/mailer/smtp_sender.py     (SmtpSender.send_email, current variant)
- src/hr-outreach-automation/src/mailer/smtp_sender.py (legacy variant)

Modelling conventions:
- Python str.startswith is embedded as a character-level prefix test.
- The ambient clock is explicit: dt.date.today().isoformat() becomes a
  `today : String` parameter, and dt.datetime.utcnow().isoformat() becomes a
  stream `now : Nat → String` sampled at each ledger append.
- External collaborators (personalizer, SMTP transport, filesystem) are
  oracles in an environment record; an oracle returning none / false stands
  for the corresponding Python call raising an exception.
- The in-memory log rows are dicts; the driver only ever reads the keys
  "email" and "timestamp" from them (rows appended during the run carry only
  those two keys), so a log row is embedded as that projection.
-/

/-- Python str.startswith: character-level prefix comparison. -/
def pyStartsWith (s pre : String) : Bool := pre.data.isPrefixOf s.data

/-- EmailCandidate produced by upstream enrichment (fields written by
email_discovery and consumed by the driver loop in main.py). -/
structure EmailCandidate where
  recruiter_name : String
  email : String
  confidence_score : Rat
  source : String
deriving DecidableEq, Repr

/-- SendRecord: one durable row of the append-only send ledger
(fields of append_log in main.py: email, company, timestamp, status). -/
structure SendRecord where
  email : String
  company : String
  timestamp : String
  status : String
deriving DecidableEq, Repr

/-- In-memory log row as read by the driver: of the dict rows held in
`logs`, only the keys "email" (already_sent) and "timestamp" (sent_today)
are ever read, so the row is embedded as that projection. -/
structure LogRow where
  email : String
  timestamp : String
deriving DecidableEq, Repr

/-- Projection of a durable 4-field CSV row to the fields the loop reads
(read_logs returns the CSV rows; the loop reads email and timestamp). -/
def toLogRow (r : SendRecord) : LogRow := ⟨r.email, r.timestamp⟩

/-- RateLimiter dataclass from src/src/mailer/rate_limiter.py. -/
structure RateLimiter where
  daily_limit : Nat
  min_seconds_between_sends : Nat
deriving DecidableEq, Repr

/-- RateLimiter.sent_today: iterate the rows, counting those whose
"timestamp" value starts with today's ISO date.  The Python method reads the
current date itself (dt.date.today().isoformat()); here the ambient clock is
the explicit parameter `today`. -/
def RateLimiter.sent_today (_rl : RateLimiter) (today : String)
    (log_rows : List LogRow) : Nat :=
  log_rows.foldl
    (fun count row => if pyStartsWith row.timestamp today then count + 1 else count) 0

/-- RateLimiter.can_send: sent_today(log_rows) < daily_limit. -/
def RateLimiter.can_send (rl : RateLimiter) (today : String)
    (log_rows : List LogRow) : Bool :=
  decide (rl.sent_today today log_rows < rl.daily_limit)

/-- One step of the dedup loop in main.py: the insertion-ordered dict
`deduped_emails` is embedded as the list of its values; a candidate is
inserted iff no candidate with the same email key is present yet. -/
def dedupeStep (acc : List EmailCandidate) (e : EmailCandidate) : List EmailCandidate :=
  if acc.any (fun d => d.email == e.email) then acc else acc ++ [e]

/-- Candidate dedup from main.py lines 276-281: first occurrence of each
email wins, output order is first-seen insertion order (Python dicts
preserve insertion order). -/
def dedupe (emails : List EmailCandidate) : List EmailCandidate :=
  emails.foldl dedupeStep []

/-- Job record as consulted by the driver (job_lookup by company name). -/
structure JobPosting where
  job_title : String
  location : String
deriving DecidableEq, Repr

/-- PersonalizedEmail returned by the external personalizer. -/
structure PersonalizedEmail where
  subject : String
  body : String
deriving DecidableEq, Repr

/-- Context dict handed to personalizer.personalize in main.py. -/
structure OutreachContext where
  company_name : String
  job_title : String
  location : String
  recruiter_name : String
  recruiter_role : String
  candidate_profile : String
  candidate_name : String
  candidate_email : String
deriving DecidableEq, Repr

/-- Environment of the driver run: configuration plus the external
collaborators (clock, personalizer, transport) as oracles.
`personalize ctx = none` models the external personalizer raising (e.g.
requests/raise_for_status in EmailPersonalizer._generate_with_openai);
`sendOutcome r s b = false` models sender.send_email raising. -/
structure RunEnv where
  senderConfigured : Bool
  today : String
  now : Nat → String
  recruiterCompany : String → Option String
  jobLookup : String → Option JobPosting
  personalize : OutreachContext → Option PersonalizedEmail
  sendOutcome : String → String → String → Bool
  footer : String
  candidate_profile : String
  candidate_name : String
  candidate_email : String

/-- Mutable state of one driver run: the durable ledger (append_log) and
the in-memory `logs` list, plus ghost traces of the personalize calls and
the transport invocations made so far (for frame/effect claims). -/
structure DriverState where
  ledger : List SendRecord
  logs : List LogRow
  sends : List String
  personalizations : List String
deriving DecidableEq, Repr

/-- Result of a run: final state plus whether an uncaught exception escaped
the loop (only the personalize call sits outside the try/except). -/
structure RunResult where
  state : DriverState
  crashed : Bool
deriving DecidableEq, Repr

/-- Status computed by the try/except block of the send loop: the
initializer "skipped" is overwritten on every path through the block. -/
def sendStatus (senderConfigured sendSucceeded : Bool) : String :=
  if !senderConfigured then "dry_run" else if sendSucceeded then "sent" else "failed"

/-- Context dict built for a candidate (main.py lines 316-327). -/
def mkContext (env : RunEnv) (c : EmailCandidate) : OutreachContext :=
  let company := (env.recruiterCompany c.recruiter_name).getD ""
  { company_name := company
    job_title :=
      match env.jobLookup company with
      | some j => j.job_title
      | none => "open role"
    location :=
      match env.jobLookup company with
      | some j => j.location
      | none => "the United States"
    recruiter_name := c.recruiter_name
    recruiter_role := "Recruiter"
    candidate_profile := env.candidate_profile
    candidate_name := env.candidate_name
    candidate_email := env.candidate_email }

/-- SendRecord appended for one processed candidate (main.py lines 328-356):
company from recruiter_company_map with default "", timestamp sampled from
the clock at the append, status from the try/except block of the send. -/
def stepRecord (env : RunEnv) (st : DriverState) (c : EmailCandidate)
    (p : PersonalizedEmail) : SendRecord :=
  { email := c.email
    company := (env.recruiterCompany c.recruiter_name).getD ""
    timestamp := env.now st.ledger.length
    status :=
      sendStatus env.senderConfigured
        (env.sendOutcome c.email p.subject (p.body ++ env.footer)) }

/-- State after one processed candidate: the record goes to the durable
ledger (append_log) and its email/timestamp projection to the in-memory
logs (logs.append); the ghost traces record the transport invocation (only
when a sender is configured) and the personalize call. -/
def stepState (env : RunEnv) (st : DriverState) (c : EmailCandidate)
    (p : PersonalizedEmail) : DriverState :=
  { ledger := st.ledger ++ [stepRecord env st c p]
    logs := st.logs ++ [toLogRow (stepRecord env st c p)]
    sends := st.sends ++ (if env.senderConfigured then [c.email] else [])
    personalizations := st.personalizations ++ [c.email] }

/-- Driver send loop of main.py lines 310-357, one candidate at a time:
skip rows already in already_sent; hard break when the rate gate closes;
personalize (outside the try/except: a raise here crashes the run);
send inside try/except (an error becomes status "failed"); append one record
to the durable ledger and one email/timestamp row to the in-memory logs. -/
def runLoop (env : RunEnv) (rl : RateLimiter) (alreadySent : List String) :
    DriverState → List EmailCandidate → RunResult
  | st, [] => ⟨st, false⟩
  | st, c :: rest =>
    if alreadySent.contains c.email = true then
      runLoop env rl alreadySent st rest
    else if rl.can_send env.today st.logs = false then
      ⟨st, false⟩
    else
      match env.personalize (mkContext env c) with
      | none =>
        ⟨{ st with personalizations := st.personalizations ++ [c.email] }, true⟩
      | some p =>
        runLoop env rl alreadySent (stepState env st c p) rest

/-- Initial driver state: read_logs loads the persisted ledger rows into
the in-memory logs list; traces start empty. -/
def initState (ledger0 : List SendRecord) : DriverState :=
  ⟨ledger0, ledger0.map toLogRow, [], []⟩

/-- already_sent = the set comprehension over row.get("email") of the
loaded logs (main.py line 299), embedded as the list of those emails. -/
def alreadySentOf (ledger0 : List SendRecord) : List String :=
  (ledger0.map toLogRow).map (fun row => row.email)

/-- One driver run over an (already deduplicated) candidate list against a
persisted ledger. -/
def runMain (env : RunEnv) (rl : RateLimiter) (candidates : List EmailCandidate)
    (ledger0 : List SendRecord) : RunResult :=
  runLoop env rl (alreadySentOf ledger0) (initState ledger0) candidates

/-- Count of ledger records dated today carrying a quota-relevant status
(the measure of claim C3). -/
def sentOrDryRunToday (today : String) (ledger : List SendRecord) : Nat :=
  ledger.countP
    (fun r => pyStartsWith r.timestamp today && (r.status == "sent" || r.status == "dry_run"))

/-- Count of ledger records dated today of any status. -/
def recordsToday (today : String) (ledger : List SendRecord) : Nat :=
  ledger.countP (fun r => pyStartsWith r.timestamp today)

/-- SmtpConfig dataclass (identical in both sender variants). -/
structure SmtpConfig where
  host : String
  port : Nat
  username : String
  password : String
  sender_name : String
  sender_email : String
deriving DecidableEq, Repr

/-- One attachment added to an outgoing message. -/
structure MailAttachment where
  content : String
  maintype : String
  subtype : String
  filename : String
deriving DecidableEq, Repr

/-- EmailMessage as assembled by send_email. -/
structure MailMessage where
  subject : String
  from_header : String
  to_header : String
  content : String
  attachments : List MailAttachment
deriving DecidableEq, Repr

/-- Exceptions a send can raise, by the raising step. -/
inductive SmtpError where
  | fileNotFound
  | connectError
  | loginError
  | sendError
deriving DecidableEq, Repr

/-- Result of a send: either the message handed to the server, or the
exception that escaped. -/
inductive SendResult where
  | ok : MailMessage → SendResult
  | error : SmtpError → SendResult
deriving DecidableEq, Repr

/-- Outcome of a send_email call: the warnings printed, and either the
message that was handed to the server or the exception that escaped. -/
structure SendOutcome where
  warnings : List String
  result : SendResult
deriving DecidableEq, Repr

/-- External world of the sender: filesystem and SMTP server as oracles.
guessType is mimetypes.guess_type, returning the maintype/subtype split of
the guessed MIME string (guess_type yields either None or a maintype/subtype
string, which send_email splits at the first slash). A false oracle models
the corresponding library call raising. -/
structure SmtpWorld where
  fileExists : String → Bool
  fileContent : String → String
  guessType : String → Option (String × String)
  connectOk : Bool
  starttlsOk : Bool
  loginOk : Bool
  sendOk : Bool

/-- Python pathlib Path(p).name: the final path component. -/
def pathName (p : String) : String := (p.splitOn "/").getLastD p

/-- Python pathlib Path(p).suffix: the extension of the final component
(the part from the last dot, when that dot is neither the first nor the
last character of the name). -/
def pathSuffix (p : String) : String :=
  let cs := (pathName p).data
  let rev := cs.reverse
  if rev.contains '.' then
    let i := rev.findIdx (fun ch => ch == '.')
    let pos := cs.length - 1 - i
    if 0 < pos ∧ pos < cs.length - 1 then ⟨cs.drop pos⟩ else ""
  else ""

/-- Message skeleton common to both sender variants (subject/from/to/body,
no attachment yet). -/
def baseMessage (config : SmtpConfig) (recipient subject body : String) : MailMessage :=
  { subject := subject
    from_header := config.sender_name ++ " <" ++ config.sender_email ++ ">"
    to_header := recipient
    content := body
    attachments := [] }

/-- SmtpSender.send_email of src/src/mailer/smtp_sender.py (current
variant): if the attachment file exists it is attached with a guessed MIME
type (application/octet-stream fallback), otherwise a warning is printed
and the message goes out without an attachment; port 465 uses implicit SSL,
any other port attempts STARTTLS and downgrades a STARTTLS failure to a
warning; then login and send, each of which may raise. -/
def SmtpSender.send_email (w : SmtpWorld) (config : SmtpConfig)
    (recipient subject body attachment_path : String) : SendOutcome :=
  let base := baseMessage config recipient subject body
  let assembled : MailMessage × List String :=
    if w.fileExists attachment_path = true then
      let ms : String × String :=
        match w.guessType attachment_path with
        | some pair => pair
        | none => ("application", "octet-stream")
      ({ base with
          attachments :=
            [⟨w.fileContent attachment_path, ms.1, ms.2, pathName attachment_path⟩] },
        [])
    else
      (base,
        ["[warn] Attachment not found at " ++ attachment_path
          ++ "; sending without attachment"])
  let message := assembled.1
  let warns := assembled.2
  if w.connectOk = false then ⟨warns, .error .connectError⟩
  else
    let warns2 :=
      if config.port ≠ 465 ∧ w.starttlsOk = false then
        warns ++ ["[warn] STARTTLS failed or not supported by server; continuing without STARTTLS"]
      else warns
    if w.loginOk = false then ⟨warns2, .error .loginError⟩
    else if w.sendOk = false then ⟨warns2, .error .sendError⟩
    else ⟨warns2, .ok message⟩

/-- send_email of src/hr-outreach-automation/src/mailer/smtp_sender.py
(legacy variant): the attachment file is opened unconditionally, so a
missing file raises FileNotFoundError before any message is sent; the
subtype is the file suffix with leading dots stripped; STARTTLS is not
wrapped in try/except, so its failure also raises. -/
def LegacySmtpSender.send_email (w : SmtpWorld) (config : SmtpConfig)
    (recipient subject body attachment_path : String) : SendOutcome :=
  let base := baseMessage config recipient subject body
  if w.fileExists attachment_path = false then ⟨[], .error .fileNotFound⟩
  else
    let message :=
      { base with
          attachments :=
            [⟨w.fileContent attachment_path, "application",
              ⟨(pathSuffix attachment_path).data.dropWhile (fun ch => ch == '.')⟩,
              pathName attachment_path⟩] }
    if w.connectOk = false then ⟨[], .error .connectError⟩
    else if w.starttlsOk = false then ⟨[], .error .loginError⟩
    else if w.loginOk = false then ⟨[], .error .loginError⟩
    else if w.sendOk = false then ⟨[], .error .sendError⟩
    else ⟨[], .ok message⟩

/-! ## Rate-limiter lemmas -/

theorem sent_today_foldl (today : String) (rows : List LogRow) (n : Nat) :
    rows.foldl
      (fun count row => if pyStartsWith row.timestamp today then count + 1 else count) n
      = n + rows.countP (fun row => pyStartsWith row.timestamp today) := by
  induction rows generalizing n with
  | nil => simp
  | cons r rest ih =>
    simp only [List.foldl_cons, List.countP_cons, ih]
    by_cases h : pyStartsWith r.timestamp today
    · simp [h]; omega
    · simp [h]

theorem sent_today_eq_countP (rl : RateLimiter) (today : String) (rows : List LogRow) :
    rl.sent_today today rows = rows.countP (fun row => pyStartsWith row.timestamp today) := by
  unfold RateLimiter.sent_today
  simpa using sent_today_foldl today rows 0

theorem sent_today_append (rl : RateLimiter) (today : String) (rows : List LogRow)
    (row : LogRow) :
    rl.sent_today today (rows ++ [row])
      = rl.sent_today today rows
        + (if pyStartsWith row.timestamp today then 1 else 0) := by
  simp [sent_today_eq_countP, List.countP_append, List.countP_cons]

theorem can_send_iff (rl : RateLimiter) (today : String) (rows : List LogRow) :
    rl.can_send today rows = true ↔ rl.sent_today today rows < rl.daily_limit := by
  simp [RateLimiter.can_send]

/-! ## Dedup lemmas -/

theorem dedupeStep_pos (acc : List EmailCandidate) (e : EmailCandidate)
    (h : acc.any (fun d => d.email == e.email) = true) : dedupeStep acc e = acc := by
  simp [dedupeStep, h]

theorem dedupeStep_neg (acc : List EmailCandidate) (e : EmailCandidate)
    (h : acc.any (fun d => d.email == e.email) = false) :
    dedupeStep acc e = acc ++ [e] := by
  simp [dedupeStep, h]

theorem dedupe_foldl_filter (e : String) (l : List EmailCandidate) :
    ∀ acc : List EmailCandidate,
      (l.foldl dedupeStep acc).filter (fun c => c.email == e)
        = acc.filter (fun c => c.email == e)
          ++ (if acc.any (fun d => d.email == e) then []
              else (l.find? (fun c => c.email == e)).toList) := by
  induction l with
  | nil => intro acc; by_cases h : acc.any (fun d => d.email == e) = true <;> simp [h]
  | cons c rest ih =>
    intro acc
    rw [List.foldl_cons]
    cases hdrop : acc.any (fun d => d.email == c.email) with
    | true =>
      rw [dedupeStep_pos acc c hdrop, ih acc]
      by_cases hce : (c.email == e) = true
      · have hc : c.email = e := eq_of_beq hce
        rw [hc] at hdrop
        simp [List.find?_cons, hce, hdrop]
      · simp only [Bool.not_eq_true] at hce
        simp [List.find?_cons, hce]
    | false =>
      rw [dedupeStep_neg acc c hdrop, ih (acc ++ [c])]
      by_cases hce : (c.email == e) = true
      · have hc : c.email = e := eq_of_beq hce
        have hacc : acc.any (fun d => d.email == e) = false := by
          rw [← hc]; exact hdrop
        have haccc : (acc ++ [c]).any (fun d => d.email == e) = true := by
          simp [List.any_append, hce]
        simp [List.filter_append, List.find?_cons, hce, hacc, haccc]
      · simp only [Bool.not_eq_true] at hce
        have hany : (acc ++ [c]).any (fun d => d.email == e) = acc.any (fun d => d.email == e) := by
          simp [List.any_append, hce]
        simp [List.filter_append, List.find?_cons, hce, hany]

theorem dedupe_foldl_sublist (l : List EmailCandidate) :
    ∀ acc : List EmailCandidate, (l.foldl dedupeStep acc).Sublist (acc ++ l) := by
  induction l with
  | nil => intro acc; simp
  | cons c rest ih =>
    intro acc
    rw [List.foldl_cons]
    cases h : acc.any (fun d => d.email == c.email) with
    | true =>
      rw [dedupeStep_pos acc c h]
      refine (ih acc).trans (List.Sublist.append_left ?_ acc)
      exact List.sublist_cons_self c rest
    | false =>
      rw [dedupeStep_neg acc c h]
      have := ih (acc ++ [c])
      simpa [List.append_assoc] using this

/-! ## Claims about the candidate filter and the rate gate -/

/-- C6: for every input sequence containing at least one occurrence of a
given email, dedupe yields exactly one entry for that email, equal to the
first occurrence (find? returns the first match), and the output follows
first-seen insertion order (it is a sublist of the input). -/
theorem dedupe_first_occurrence_wins (l : List EmailCandidate) (e : String)
    (h : ∃ c ∈ l, c.email = e) :
    (dedupe l).countP (fun c => c.email == e) = 1
    ∧ (dedupe l).filter (fun c => c.email == e)
        = (l.find? (fun c => c.email == e)).toList
    ∧ (dedupe l).Sublist l := by
  have hfilter : (dedupe l).filter (fun c => c.email == e)
      = (l.find? (fun c => c.email == e)).toList := by
    have hgen := dedupe_foldl_filter e l []
    simpa [dedupe] using hgen
  have hfind : (l.find? (fun c => c.email == e)).isSome = true := by
    rw [List.find?_isSome]
    obtain ⟨c, hc, hce⟩ := h
    exact ⟨c, hc, by simpa using hce⟩
  have hcount : (dedupe l).countP (fun c => c.email == e) = 1 := by
    rw [List.countP_eq_length_filter, hfilter]
    obtain ⟨x, hx⟩ := Option.isSome_iff_exists.mp hfind
    simp [hx]
  have hsub : (dedupe l).Sublist l := by
    have hgen := dedupe_foldl_sublist l []
    simpa [dedupe] using hgen
  exact ⟨hcount, hfilter, hsub⟩

def candA : EmailCandidate := ⟨"Ann", "a@x.com", 1, "guess"⟩

def candA2 : EmailCandidate := ⟨"Anne", "a@x.com", 0, "scrape"⟩

def candB : EmailCandidate := ⟨"Bob", "b@x.com", 1, "guess"⟩

theorem dedupe_first_occurrence_wins_witness :
    (∃ c ∈ [candA, candA2, candB], c.email = "a@x.com")
    ∧ ((dedupe [candA, candA2, candB]).countP (fun c => c.email == "a@x.com") = 1
        ∧ (dedupe [candA, candA2, candB]).filter (fun c => c.email == "a@x.com")
            = ([candA, candA2, candB].find? (fun c => c.email == "a@x.com")).toList
        ∧ (dedupe [candA, candA2, candB]).Sublist [candA, candA2, candB]) :=
  ⟨⟨candA, by simp, rfl⟩,
    dedupe_first_occurrence_wins [candA, candA2, candB] "a@x.com" ⟨candA, by simp, rfl⟩⟩

/-- C4: sent_today is the count of rows whose timestamp string starts with
today's date, can_send holds exactly when that count is strictly below
daily_limit, and neither depends on min_seconds_between_sends. -/
theorem rate_gate_definition (K m : Nat) (today : String) (rows : List LogRow) :
    (RateLimiter.mk K m).sent_today today rows
      = rows.countP (fun row => pyStartsWith row.timestamp today)
    ∧ ((RateLimiter.mk K m).can_send today rows = true
        ↔ rows.countP (fun row => pyStartsWith row.timestamp today) < K)
    ∧ ∀ m2 : Nat, (RateLimiter.mk K m2).can_send today rows
        = (RateLimiter.mk K m).can_send today rows := by
  refine ⟨sent_today_eq_countP _ _ _, ?_, ?_⟩
  · rw [can_send_iff, sent_today_eq_countP]
  · intro m2
    simp [RateLimiter.can_send, RateLimiter.sent_today]

/-- Modelled from the spec (claim C5): the quota count the claim describes,
which would exclude records with status failed or skipped. -/
def sentTodayExcludingFailures (today : String) (ledger : List SendRecord) : Nat :=
  ledger.countP
    (fun r => pyStartsWith r.timestamp today
      && !(r.status == "failed" || r.status == "skipped"))

def failedRecordJan1 : SendRecord := ⟨"a@x.com", "Acme", "2025-01-01T09:00:00", "failed"⟩

/-- C5 counterexample: a single record with status "failed" dated today is
excluded by the count the claim describes (0), yet the code counts it (1)
and the gate with daily_limit = 1 closes because of it. -/
theorem failed_records_count_toward_quota_cex :
    sentTodayExcludingFailures "2025-01-01" [failedRecordJan1] = 0
    ∧ (RateLimiter.mk 1 0).sent_today "2025-01-01" ([failedRecordJan1].map toLogRow) = 1
    ∧ (RateLimiter.mk 1 0).can_send "2025-01-01" ([failedRecordJan1].map toLogRow) = false := by
  decide

/-- C5 amended: sent_today counts every ledger row dated today regardless
of status (it never reads the status field), so failed and skipped records
dated today consume quota exactly like sent and dry_run ones. -/
theorem sent_today_counts_all_statuses (rl : RateLimiter) (today : String)
    (ledger : List SendRecord) (f : SendRecord → String) :
    rl.sent_today today (ledger.map toLogRow) = recordsToday today ledger
    ∧ rl.sent_today today
        ((ledger.map (fun r => { r with status := f r })).map toLogRow)
      = rl.sent_today today (ledger.map toLogRow) := by
  constructor
  · rw [sent_today_eq_countP, recordsToday, List.countP_map]
    rfl
  · rw [List.map_map]
    have hfun : toLogRow ∘ (fun r => { r with status := f r }) = toLogRow := by
      funext r
      rfl
    rw [hfun]

/-! ## Driver loop step lemmas -/

theorem runLoop_nil (env : RunEnv) (rl : RateLimiter) (A : List String)
    (st : DriverState) : runLoop env rl A st [] = ⟨st, false⟩ := rfl

theorem runLoop_skip (env : RunEnv) (rl : RateLimiter) (A : List String)
    (st : DriverState) (c : EmailCandidate) (rest : List EmailCandidate)
    (h : A.contains c.email = true) :
    runLoop env rl A st (c :: rest) = runLoop env rl A st rest := by
  have h' : c.email ∈ A := by simpa using h
  simp [runLoop, h']

theorem runLoop_gate (env : RunEnv) (rl : RateLimiter) (A : List String)
    (st : DriverState) (c : EmailCandidate) (rest : List EmailCandidate)
    (h1 : A.contains c.email = false)
    (h2 : rl.can_send env.today st.logs = false) :
    runLoop env rl A st (c :: rest) = ⟨st, false⟩ := by
  have h1' : c.email ∉ A := by simpa using h1
  simp [runLoop, h1', h2]

theorem runLoop_crash (env : RunEnv) (rl : RateLimiter) (A : List String)
    (st : DriverState) (c : EmailCandidate) (rest : List EmailCandidate)
    (h1 : A.contains c.email = false)
    (h2 : rl.can_send env.today st.logs = true)
    (h3 : env.personalize (mkContext env c) = none) :
    runLoop env rl A st (c :: rest)
      = ⟨{ st with personalizations := st.personalizations ++ [c.email] }, true⟩ := by
  have h1' : c.email ∉ A := by simpa using h1
  simp [runLoop, h1', h2, h3]

theorem runLoop_send (env : RunEnv) (rl : RateLimiter) (A : List String)
    (st : DriverState) (c : EmailCandidate) (rest : List EmailCandidate)
    (p : PersonalizedEmail)
    (h1 : A.contains c.email = false)
    (h2 : rl.can_send env.today st.logs = true)
    (h3 : env.personalize (mkContext env c) = some p) :
    runLoop env rl A st (c :: rest)
      = runLoop env rl A (stepState env st c p) rest := by
  have h1' : c.email ∉ A := by simpa using h1
  simp [runLoop, h1', h2, h3]

/-! ## Driver loop invariants -/

theorem runLoop_appends (env : RunEnv) (rl : RateLimiter) (A : List String) :
    ∀ (cs : List EmailCandidate) (st : DriverState),
      ∃ t : List SendRecord,
        (runLoop env rl A st cs).state.ledger = st.ledger ++ t
        ∧ (runLoop env rl A st cs).state.logs = st.logs ++ t.map toLogRow
        ∧ ∀ r ∈ t,
            (∃ c ∈ cs, c.email = r.email ∧ A.contains c.email = false)
            ∧ (r.status = "sent" ∨ r.status = "dry_run" ∨ r.status = "failed") := by
  intro cs
  induction cs with
  | nil =>
    intro st
    exact ⟨[], by simp [runLoop_nil], by simp [runLoop_nil], by simp⟩
  | cons c rest ih =>
    intro st
    cases hskip : A.contains c.email with
    | true =>
      obtain ⟨t, h1, h2, h3⟩ := ih st
      refine ⟨t, ?_, ?_, ?_⟩
      · rw [runLoop_skip env rl A st c rest hskip]
        exact h1
      · rw [runLoop_skip env rl A st c rest hskip]
        exact h2
      · intro r hr
        obtain ⟨⟨c2, hc2, he, hA⟩, hs⟩ := h3 r hr
        exact ⟨⟨c2, List.mem_cons_of_mem c hc2, he, hA⟩, hs⟩
    | false =>
      cases hgate : rl.can_send env.today st.logs with
      | false =>
        refine ⟨[], ?_, ?_, by simp⟩ <;>
          rw [runLoop_gate env rl A st c rest hskip hgate] <;> simp
      | true =>
        cases hpers : env.personalize (mkContext env c) with
        | none =>
          refine ⟨[], ?_, ?_, by simp⟩ <;>
            rw [runLoop_crash env rl A st c rest hskip hgate hpers] <;> simp
        | some p =>
          obtain ⟨t, h1, h2, h3⟩ := ih (stepState env st c p)
          refine ⟨stepRecord env st c p :: t, ?_, ?_, ?_⟩
          · rw [runLoop_send env rl A st c rest p hskip hgate hpers, h1]
            simp [stepState]
          · rw [runLoop_send env rl A st c rest p hskip hgate hpers, h2]
            simp [stepState]
          · intro r hr
            rcases List.mem_cons.mp hr with h | h
            · subst h
              refine ⟨⟨c, List.mem_cons_self c rest, rfl, hskip⟩, ?_⟩
              unfold stepRecord sendStatus
              cases env.senderConfigured <;>
                cases env.sendOutcome c.email p.subject (p.body ++ env.footer) <;> simp
            · obtain ⟨⟨c2, hc2, he, hA⟩, hs⟩ := h3 r h
              exact ⟨⟨c2, List.mem_cons_of_mem c hc2, he, hA⟩, hs⟩

theorem runLoop_logs_mirror (env : RunEnv) (rl : RateLimiter) (A : List String)
    (cs : List EmailCandidate) (st : DriverState)
    (h : st.logs = st.ledger.map toLogRow) :
    (runLoop env rl A st cs).state.logs
      = (runLoop env rl A st cs).state.ledger.map toLogRow := by
  obtain ⟨t, h1, h2, _⟩ := runLoop_appends env rl A cs st
  rw [h1, h2, h, List.map_append]

theorem runLoop_gate_stuck (env : RunEnv) (rl : RateLimiter) (A : List String) :
    ∀ (cs : List EmailCandidate) (st : DriverState),
      rl.can_send env.today st.logs = false →
      runLoop env rl A st cs = ⟨st, false⟩ := by
  intro cs
  induction cs with
  | nil => intro st _; rfl
  | cons c rest ih =>
    intro st h
    cases hskip : A.contains c.email with
    | true =>
      rw [runLoop_skip env rl A st c rest hskip]
      exact ih st h
    | false => exact runLoop_gate env rl A st c rest hskip h

theorem runLoop_today_bound (env : RunEnv) (rl : RateLimiter) (A : List String) :
    ∀ (cs : List EmailCandidate) (st : DriverState),
      rl.sent_today env.today st.logs ≤ rl.daily_limit →
      rl.sent_today env.today (runLoop env rl A st cs).state.logs ≤ rl.daily_limit := by
  intro cs
  induction cs with
  | nil =>
    intro st h
    simpa [runLoop_nil] using h
  | cons c rest ih =>
    intro st h
    cases hskip : A.contains c.email with
    | true =>
      rw [runLoop_skip env rl A st c rest hskip]
      exact ih st h
    | false =>
      cases hgate : rl.can_send env.today st.logs with
      | false =>
        rw [runLoop_gate env rl A st c rest hskip hgate]
        simpa using h
      | true =>
        cases hpers : env.personalize (mkContext env c) with
        | none =>
          rw [runLoop_crash env rl A st c rest hskip hgate hpers]
          simpa using h
        | some p =>
          rw [runLoop_send env rl A st c rest p hskip hgate hpers]
          apply ih
          have hlt : rl.sent_today env.today st.logs < rl.daily_limit :=
            (can_send_iff rl env.today st.logs).mp hgate
          have hstep : rl.sent_today env.today (stepState env st c p).logs
              ≤ rl.sent_today env.today st.logs + 1 := by
            simp only [stepState]
            rw [sent_today_append]
            split <;> omega
          omega

/-! ## Claim C3: daily quota invariant -/

theorem sentOrDry_le_recordsToday (today : String) (L : List SendRecord) :
    sentOrDryRunToday today L ≤ recordsToday today L := by
  apply List.countP_mono_left
  intro r _ hr
  simp only [Bool.and_eq_true] at hr
  exact hr.1

theorem recordsToday_eq_sent_today (rl : RateLimiter) (today : String)
    (L : List SendRecord) :
    recordsToday today L = rl.sent_today today (L.map toLogRow) := by
  rw [sent_today_eq_countP, List.countP_map]
  rfl

/-- Fully dry-run sample environment for concrete evaluations: no transport
configured, template personalizer, constant clock on 2025-01-01. -/
def env0 : RunEnv :=
  { senderConfigured := false
    today := "2025-01-01"
    now := fun _ => "2025-01-01T12:00:00"
    recruiterCompany := fun _ => none
    jobLookup := fun _ => none
    personalize := fun ctx => some ⟨"Interest in " ++ ctx.job_title, "Hello"⟩
    sendOutcome := fun _ _ _ => true
    footer := ""
    candidate_profile := "relevant experience and skills"
    candidate_name := "Candidate Name"
    candidate_email := "candidate@example.com" }

def candC : EmailCandidate := ⟨"Cai", "c@x.com", 1, "guess"⟩

/-- Initial ledger already holding two quota-consuming records dated
2025-01-01. -/
def ledgerOver : List SendRecord :=
  [⟨"a@x.com", "Acme", "2025-01-01T08:00:00", "sent"⟩,
    ⟨"b@x.com", "Acme", "2025-01-01T08:05:00", "sent"⟩]

/-- C3 counterexample: with daily_limit = 1 and an initial ledger already
holding 2 sent records dated today, the run completes (the gate refuses
candidate c@x.com) but the final ledger still has 2 > 1 quota-consuming
records dated today, so the claim fails for this initial ledger. -/
theorem quota_invariant_cex :
    (runMain env0 (RateLimiter.mk 1 0) [candC] ledgerOver).crashed = false
    ∧ ¬ sentOrDryRunToday env0.today
        (runMain env0 (RateLimiter.mk 1 0) [candC] ledgerOver).state.ledger
        ≤ (RateLimiter.mk 1 0).daily_limit := by
  decide

/-- C3 amended: provided the initial ledger contains at most daily_limit
records with status sent or dry_run dated today, the run preserves that
bound: the gate counts every record dated today, each append is guarded by
the gate, and the in-memory logs mirror the durable ledger. -/
theorem quota_invariant_amended (env : RunEnv) (rl : RateLimiter)
    (cs : List EmailCandidate) (ledger0 : List SendRecord)
    (h : sentOrDryRunToday env.today ledger0 ≤ rl.daily_limit) :
    sentOrDryRunToday env.today (runMain env rl cs ledger0).state.ledger
      ≤ rl.daily_limit := by
  cases hgate : rl.can_send env.today (initState ledger0).logs with
  | false =>
    unfold runMain
    rw [runLoop_gate_stuck env rl (alreadySentOf ledger0) cs (initState ledger0) hgate]
    simpa [initState] using h
  | true =>
    have hT : rl.sent_today env.today (initState ledger0).logs ≤ rl.daily_limit :=
      le_of_lt ((can_send_iff rl env.today (initState ledger0).logs).mp hgate)
    have hbound := runLoop_today_bound env rl (alreadySentOf ledger0) cs (initState ledger0) hT
    have hmirror := runLoop_logs_mirror env rl (alreadySentOf ledger0) cs (initState ledger0)
      (by simp [initState])
    unfold runMain
    calc sentOrDryRunToday env.today
          (runLoop env rl (alreadySentOf ledger0) (initState ledger0) cs).state.ledger
        ≤ recordsToday env.today
            (runLoop env rl (alreadySentOf ledger0) (initState ledger0) cs).state.ledger :=
          sentOrDry_le_recordsToday env.today _
      _ = rl.sent_today env.today
            ((runLoop env rl (alreadySentOf ledger0) (initState ledger0) cs).state.ledger.map
              toLogRow) := recordsToday_eq_sent_today rl env.today _
      _ = rl.sent_today env.today
            (runLoop env rl (alreadySentOf ledger0) (initState ledger0) cs).state.logs := by
          rw [hmirror]
      _ ≤ rl.daily_limit := hbound

theorem quota_invariant_amended_witness :
    sentOrDryRunToday env0.today ([] : List SendRecord) ≤ (RateLimiter.mk 1 0).daily_limit
    ∧ sentOrDryRunToday env0.today
        (runMain env0 (RateLimiter.mk 1 0) [candB, candC] []).state.ledger
      ≤ (RateLimiter.mk 1 0).daily_limit :=
  ⟨by decide, quota_invariant_amended env0 (RateLimiter.mk 1 0) [candB, candC] [] (by decide)⟩

/-! ## Claim C10: no skipped record is ever written -/

theorem alreadySentOf_eq (ledger0 : List SendRecord) :
    alreadySentOf ledger0 = ledger0.map (fun r => r.email) := by
  simp only [alreadySentOf, List.map_map]
  rfl

/-- C10: every record present in the ledger after a run is either one of
the preexisting records or carries status sent, dry_run or failed; in
particular the run never appends a record with status "skipped" (the
"skipped" initializer of the status variable is overwritten on every path
that reaches append_log). -/
theorem no_skipped_record_written (env : RunEnv) (rl : RateLimiter)
    (cs : List EmailCandidate) (ledger0 : List SendRecord) (r : SendRecord)
    (hr : r ∈ (runMain env rl cs ledger0).state.ledger) :
    r ∈ ledger0
    ∨ (r.status = "sent" ∨ r.status = "dry_run" ∨ r.status = "failed")
      ∧ r.status ≠ "skipped" := by
  obtain ⟨t, h1, _, h3⟩ := runLoop_appends env rl (alreadySentOf ledger0) cs (initState ledger0)
  unfold runMain at hr
  rw [h1] at hr
  simp only [initState] at hr
  rcases List.mem_append.mp hr with h | h
  · exact Or.inl h
  · right
    obtain ⟨_, hs⟩ := h3 r h
    refine ⟨hs, ?_⟩
    rcases hs with h2 | h2 | h2 <;> rw [h2] <;> decide

theorem no_skipped_record_written_witness :
    (⟨"b@x.com", "", "2025-01-01T12:00:00", "dry_run"⟩ : SendRecord)
        ∈ (runMain env0 (RateLimiter.mk 10 30) [candB] []).state.ledger
    ∧ ((⟨"b@x.com", "", "2025-01-01T12:00:00", "dry_run"⟩ : SendRecord) ∈ ([] : List SendRecord)
        ∨ ((⟨"b@x.com", "", "2025-01-01T12:00:00", "dry_run"⟩ : SendRecord).status = "sent"
            ∨ (⟨"b@x.com", "", "2025-01-01T12:00:00", "dry_run"⟩ : SendRecord).status = "dry_run"
            ∨ (⟨"b@x.com", "", "2025-01-01T12:00:00", "dry_run"⟩ : SendRecord).status = "failed")
          ∧ (⟨"b@x.com", "", "2025-01-01T12:00:00", "dry_run"⟩ : SendRecord).status ≠ "skipped") :=
  ⟨by decide,
    no_skipped_record_written env0 (RateLimiter.mk 10 30) [candB] [] _ (by decide)⟩

/-! ## Claim C8: skipping is side-effect-free -/

theorem runLoop_skip_removal (env : RunEnv) (rl : RateLimiter) (A : List String)
    (c : EmailCandidate) (hc : A.contains c.email = true) :
    ∀ (before after : List EmailCandidate) (st : DriverState),
      runLoop env rl A st (before ++ c :: after) = runLoop env rl A st (before ++ after) := by
  intro before
  induction before with
  | nil =>
    intro after st
    simpa using runLoop_skip env rl A st c after hc
  | cons b rest ih =>
    intro after st
    simp only [List.cons_append]
    cases hskip : A.contains b.email with
    | true =>
      rw [runLoop_skip env rl A st b _ hskip, runLoop_skip env rl A st b _ hskip]
      exact ih after st
    | false =>
      cases hgate : rl.can_send env.today st.logs with
      | false =>
        rw [runLoop_gate env rl A st b _ hskip hgate,
          runLoop_gate env rl A st b _ hskip hgate]
      | true =>
        cases hpers : env.personalize (mkContext env b) with
        | none =>
          rw [runLoop_crash env rl A st b _ hskip hgate hpers,
            runLoop_crash env rl A st b _ hskip hgate hpers]
        | some p =>
          rw [runLoop_send env rl A st b _ p hskip hgate hpers,
            runLoop_send env rl A st b _ p hskip hgate hpers]
          exact ih after (stepState env st b p)

/-- C8: a candidate whose email already appears in the loaded ledger (with
any status) contributes nothing to the run: the run over a candidate list
containing it equals the run over the list with it removed, so for that
candidate no personalization happens, no transport call happens, and no
record is appended to the durable ledger or the in-memory view. -/
theorem skip_is_side_effect_free (env : RunEnv) (rl : RateLimiter)
    (c : EmailCandidate) (ledger0 : List SendRecord)
    (before after : List EmailCandidate)
    (hc : c.email ∈ ledger0.map (fun r => r.email)) :
    runMain env rl (before ++ c :: after) ledger0
      = runMain env rl (before ++ after) ledger0 := by
  unfold runMain
  apply runLoop_skip_removal
  rw [alreadySentOf_eq]
  simpa using hc

def recA : SendRecord := ⟨"a@x.com", "Acme", "2024-12-31T10:00:00", "failed"⟩

theorem skip_is_side_effect_free_witness :
    candA.email ∈ [recA].map (fun r => r.email)
    ∧ runMain env0 (RateLimiter.mk 10 30) ([] ++ candA :: [candB]) [recA]
        = runMain env0 (RateLimiter.mk 10 30) ([] ++ [candB]) [recA] :=
  ⟨by decide,
    skip_is_side_effect_free env0 (RateLimiter.mk 10 30) candA [recA] [] [candB] (by decide)⟩

/-! ## Claim C1: idempotence across runs -/

theorem runLoop_second_run_noop (env1 env2 : RunEnv) (rl : RateLimiter)
    (A1 A2 : List String) (htoday : env2.today = env1.today) :
    ∀ (cs : List EmailCandidate) (st st1 st2 : DriverState),
      runLoop env1 rl A1 st cs = ⟨st1, false⟩ →
      st.logs = st.ledger.map toLogRow →
      st2.logs = st1.ledger.map toLogRow →
      (∀ x ∈ A1, x ∈ A2) →
      (∀ x ∈ st1.ledger.map (fun r => r.email), x ∈ A2) →
      runLoop env2 rl A2 st2 cs = ⟨st2, false⟩ := by
  intro cs
  induction cs with
  | nil => intro st st1 st2 _ _ _ _ _; exact runLoop_nil env2 rl A2 st2
  | cons c rest ih =>
    intro st st1 st2 hrun hmir hmir2 hA hL
    cases hskip : A1.contains c.email with
    | true =>
      rw [runLoop_skip env1 rl A1 st c rest hskip] at hrun
      have hc2 : A2.contains c.email = true := by
        have hmem : c.email ∈ A1 := by simpa using hskip
        simpa using hA c.email hmem
      rw [runLoop_skip env2 rl A2 st2 c rest hc2]
      exact ih st st1 st2 hrun hmir hmir2 hA hL
    | false =>
      cases hgate : rl.can_send env1.today st.logs with
      | false =>
        rw [runLoop_gate env1 rl A1 st c rest hskip hgate] at hrun
        have hst : st = st1 := by injection hrun
        subst hst
        have hlogs : st2.logs = st.logs := by rw [hmir2, ← hmir]
        have hgate2 : rl.can_send env2.today st2.logs = false := by
          rw [htoday, hlogs]
          exact hgate
        exact runLoop_gate_stuck env2 rl A2 (c :: rest) st2 hgate2
      | true =>
        cases hpers : env1.personalize (mkContext env1 c) with
        | none =>
          rw [runLoop_crash env1 rl A1 st c rest hskip hgate hpers] at hrun
          simp at hrun
        | some p =>
          rw [runLoop_send env1 rl A1 st c rest p hskip hgate hpers] at hrun
          obtain ⟨t, hled, _, _⟩ := runLoop_appends env1 rl A1 rest (stepState env1 st c p)
          rw [hrun] at hled
          have hcmem : c.email ∈ st1.ledger.map (fun r => r.email) := by
            rw [hled]
            simp [stepState, stepRecord]
          have hc2 : A2.contains c.email = true := by
            simpa using hL c.email hcmem
          rw [runLoop_skip env2 rl A2 st2 c rest hc2]
          refine ih (stepState env1 st c p) st1 st2 hrun ?_ hmir2 hA hL
          simp [stepState, hmir]

/-- C1: if a first run over a candidate list finishes (normally or by the
rate-gate break, without an uncaught exception), a second run over the
unchanged candidate list against the ledger the first run persisted, with
the same current date, leaves its state exactly at the freshly loaded
initial state: no record is appended, no transport call and no personalize
call happen, and the run finishes without crashing (candidates already in
the ledger are skipped; at a first-run gate-break point the gate is still
closed for the second run). -/
theorem second_run_is_noop (env1 env2 : RunEnv) (rl : RateLimiter)
    (cs : List EmailCandidate) (ledger0 : List SendRecord) (st1 : DriverState)
    (htoday : env2.today = env1.today)
    (hrun1 : runMain env1 rl cs ledger0 = ⟨st1, false⟩) :
    runMain env2 rl cs st1.ledger = ⟨initState st1.ledger, false⟩ := by
  unfold runMain at hrun1 ⊢
  obtain ⟨t, hled, _, _⟩ :=
    runLoop_appends env1 rl (alreadySentOf ledger0) cs (initState ledger0)
  rw [hrun1] at hled
  simp only [initState] at hled
  apply runLoop_second_run_noop env1 env2 rl (alreadySentOf ledger0)
    (alreadySentOf st1.ledger) htoday cs (initState ledger0) st1
    (initState st1.ledger) hrun1
  · simp [initState]
  · simp [initState]
  · intro x hx
    rw [alreadySentOf_eq] at hx ⊢
    rw [hled, List.map_append]
    exact List.mem_append_left _ hx
  · intro x hx
    rw [alreadySentOf_eq]
    exact hx

def dryA : SendRecord := ⟨"a@x.com", "", "2025-01-01T12:00:00", "dry_run"⟩

def dryB : SendRecord := ⟨"b@x.com", "", "2025-01-01T12:00:00", "dry_run"⟩

def st1Sample : DriverState :=
  ⟨[dryA, dryB],
    [⟨"a@x.com", "2025-01-01T12:00:00"⟩, ⟨"b@x.com", "2025-01-01T12:00:00"⟩],
    [], ["a@x.com", "b@x.com"]⟩

theorem second_run_is_noop_witness :
    (env0.today = env0.today
      ∧ runMain env0 (RateLimiter.mk 2 30) [candA, candB, candC] [] = ⟨st1Sample, false⟩)
    ∧ runMain env0 (RateLimiter.mk 2 30) [candA, candB, candC] st1Sample.ledger
        = ⟨initState st1Sample.ledger, false⟩ :=
  ⟨⟨rfl, by decide⟩,
    second_run_is_noop env0 env0 (RateLimiter.mk 2 30) [candA, candB, candC] []
      st1Sample rfl (by decide)⟩

/-! ## Claim C2: exact quota with hard stop -/

theorem runLoop_exact (env : RunEnv) (rl : RateLimiter) (A : List String)
    (hnow : ∀ n, pyStartsWith (env.now n) env.today = true)
    (hpers : ∀ ctx, (env.personalize ctx).isSome = true)
    (hsend : ∀ a b c2, env.sendOutcome a b c2 = true) :
    ∀ (cs : List EmailCandidate) (st : DriverState),
      (∀ c ∈ cs, A.contains c.email = false) →
      (∀ row ∈ st.logs, pyStartsWith row.timestamp env.today = true) →
      ∃ t : List SendRecord,
        (runLoop env rl A st cs).crashed = false
        ∧ (runLoop env rl A st cs).state.ledger = st.ledger ++ t
        ∧ t.map (fun r => r.email)
            = (cs.take (rl.daily_limit - st.logs.length)).map (fun c => c.email)
        ∧ ∀ r ∈ t, r.status = "sent" ∨ r.status = "dry_run" := by
  intro cs
  induction cs with
  | nil =>
    intro st _ _
    exact ⟨[], by simp [runLoop_nil], by simp [runLoop_nil], by simp, by simp⟩
  | cons c rest ih =>
    intro st hcs htoday
    have hskip : A.contains c.email = false := hcs c (List.mem_cons_self c rest)
    have hst : rl.sent_today env.today st.logs = st.logs.length := by
      rw [sent_today_eq_countP]
      exact List.countP_eq_length.mpr (fun row hrow => htoday row hrow)
    by_cases hK : st.logs.length < rl.daily_limit
    · have hgate : rl.can_send env.today st.logs = true := by
        simp only [RateLimiter.can_send, hst]
        simpa using hK
      obtain ⟨p, hp⟩ := Option.isSome_iff_exists.mp (hpers (mkContext env c))
      rw [runLoop_send env rl A st c rest p hskip hgate hp]
      have htoday2 : ∀ row ∈ (stepState env st c p).logs,
          pyStartsWith row.timestamp env.today = true := by
        intro row hrow
        simp only [stepState, List.mem_append, List.mem_singleton] at hrow
        rcases hrow with h | h
        · exact htoday row h
        · rw [h]
          exact hnow st.ledger.length
      obtain ⟨t, h1, h2, h3, h4⟩ :=
        ih (stepState env st c p) (fun c2 hc2 => hcs c2 (List.mem_cons_of_mem c hc2)) htoday2
      refine ⟨stepRecord env st c p :: t, h1, ?_, ?_, ?_⟩
      · rw [h2]
        simp [stepState]
      · have hlen : (stepState env st c p).logs.length = st.logs.length + 1 := by
          simp [stepState]
        have hsub : rl.daily_limit - st.logs.length
            = (rl.daily_limit - (st.logs.length + 1)) + 1 := by omega
        rw [hsub, List.take_succ_cons, List.map_cons, List.map_cons]
        rw [hlen] at h3
        rw [h3]
        simp [stepRecord]
      · intro r hr
        rcases List.mem_cons.mp hr with h | h
        · rw [h]
          simp only [stepRecord, sendStatus, hsend]
          cases env.senderConfigured <;> simp
        · exact h4 r h
    · have hgate : rl.can_send env.today st.logs = false := by
        simp only [RateLimiter.can_send, hst]
        simpa using hK
      rw [runLoop_gate env rl A st c rest hskip hgate]
      have hsub : rl.daily_limit - st.logs.length = 0 := by omega
      exact ⟨[], rfl, by simp, by simp [hsub], by simp⟩

/-- C2: with daily_limit = K > 0, an empty ledger, at least K + 5
candidates with pairwise distinct emails, a total personalizer, and a
transport that succeeds on every attempted call (or no transport at all),
one run finishes without crashing, appends exactly K records, each with
status sent or dry_run, their emails being exactly the first K candidate
emails in order; every candidate beyond the first K leaves no ledger
record at all. -/
theorem exact_quota_hard_stop (env : RunEnv) (rl : RateLimiter)
    (cs : List EmailCandidate)
    (hK : 0 < rl.daily_limit)
    (hlen : rl.daily_limit + 5 ≤ cs.length)
    (hnodup : (cs.map (fun c => c.email)).Nodup)
    (hnow : ∀ n, pyStartsWith (env.now n) env.today = true)
    (hpers : ∀ ctx, (env.personalize ctx).isSome = true)
    (hsend : ∀ a b c2, env.sendOutcome a b c2 = true) :
    (runMain env rl cs []).crashed = false
    ∧ (runMain env rl cs []).state.ledger.length = rl.daily_limit
    ∧ (∀ r ∈ (runMain env rl cs []).state.ledger,
        r.status = "sent" ∨ r.status = "dry_run")
    ∧ (runMain env rl cs []).state.ledger.map (fun r => r.email)
        = (cs.take rl.daily_limit).map (fun c => c.email)
    ∧ ∀ c ∈ cs.drop rl.daily_limit,
        ∀ r ∈ (runMain env rl cs []).state.ledger, r.email ≠ c.email := by
  obtain ⟨t, h1, h2, h3, h4⟩ :=
    runLoop_exact env rl (alreadySentOf []) hnow hpers hsend cs (initState [])
      (by intro c _; rfl) (by intro row hrow; simp [initState] at hrow)
  have hled : (runMain env rl cs []).state.ledger = t := by
    unfold runMain
    rw [h2]
    simp [initState]
  have hlogs0 : (initState ([] : List SendRecord)).logs.length = 0 := by
    simp [initState]
  rw [hlogs0, Nat.sub_zero] at h3
  have hmapeq : (runMain env rl cs []).state.ledger.map (fun r => r.email)
      = (cs.take rl.daily_limit).map (fun c => c.email) := by
    rw [hled]
    exact h3
  refine ⟨by unfold runMain; exact h1, ?_, ?_, hmapeq, ?_⟩
  · have := congrArg List.length hmapeq
    simp only [List.length_map, List.length_take] at this
    rw [this]
    omega
  · intro r hr
    rw [hled] at hr
    exact h4 r hr
  · intro c hc r hr
    have hrmem : r.email ∈ ((cs.map (fun c2 => c2.email)).take rl.daily_limit) := by
      rw [← List.map_take, ← hmapeq]
      exact List.mem_map_of_mem _ hr
    have hcmem : c.email ∈ ((cs.map (fun c2 => c2.email)).drop rl.daily_limit) := by
      rw [← List.map_drop]
      exact List.mem_map_of_mem _ hc
    have hdisj : ((cs.map (fun c2 => c2.email)).take rl.daily_limit).Disjoint
        ((cs.map (fun c2 => c2.email)).drop rl.daily_limit) := by
      have hsplit := List.take_append_drop rl.daily_limit (cs.map (fun c2 => c2.email))
      rw [← hsplit] at hnodup
      rw [List.nodup_append] at hnodup
      exact hnodup.2.2
    intro heq
    exact hdisj hrmem (heq ▸ hcmem)

def sixCands : List EmailCandidate :=
  [⟨"N1", "e1@x.com", 1, "guess"⟩, ⟨"N2", "e2@x.com", 1, "guess"⟩,
    ⟨"N3", "e3@x.com", 1, "guess"⟩, ⟨"N4", "e4@x.com", 1, "guess"⟩,
    ⟨"N5", "e5@x.com", 1, "guess"⟩, ⟨"N6", "e6@x.com", 1, "guess"⟩]

theorem exact_quota_hard_stop_witness :
    (0 < (RateLimiter.mk 1 30).daily_limit
      ∧ (RateLimiter.mk 1 30).daily_limit + 5 ≤ sixCands.length
      ∧ (sixCands.map (fun c => c.email)).Nodup
      ∧ (∀ n, pyStartsWith (env0.now n) env0.today = true)
      ∧ (∀ ctx, (env0.personalize ctx).isSome = true)
      ∧ (∀ a b c2, env0.sendOutcome a b c2 = true))
    ∧ ((runMain env0 (RateLimiter.mk 1 30) sixCands []).crashed = false
        ∧ (runMain env0 (RateLimiter.mk 1 30) sixCands []).state.ledger.length
            = (RateLimiter.mk 1 30).daily_limit
        ∧ (∀ r ∈ (runMain env0 (RateLimiter.mk 1 30) sixCands []).state.ledger,
            r.status = "sent" ∨ r.status = "dry_run")
        ∧ (runMain env0 (RateLimiter.mk 1 30) sixCands []).state.ledger.map
              (fun r => r.email)
            = (sixCands.take (RateLimiter.mk 1 30).daily_limit).map (fun c => c.email)
        ∧ ∀ c ∈ sixCands.drop (RateLimiter.mk 1 30).daily_limit,
            ∀ r ∈ (runMain env0 (RateLimiter.mk 1 30) sixCands []).state.ledger,
              r.email ≠ c.email) :=
  ⟨⟨by decide, by decide, by decide, fun n => rfl, fun ctx => rfl,
      fun a b c2 => rfl⟩,
    exact_quota_hard_stop env0 (RateLimiter.mk 1 30) sixCands (by decide) (by decide)
      (by decide) (fun n => rfl) (fun ctx => rfl) (fun a b c2 => rfl)⟩

/-! ## Claim C7: failure isolation -/

def envCrash : RunEnv := { env0 with personalize := fun _ => none }

/-- C7 counterexample: when the personalizer raises for the first
candidate (OPENAI path: requests.post / raise_for_status sits outside the
try/except of the send), the whole run aborts: the result is crashed, no
record at all is appended for that candidate (no "failed" status), and the
second candidate is never processed. -/
theorem failure_isolation_cex :
    (runMain envCrash (RateLimiter.mk 10 30) [candA, candB] []).crashed = true
    ∧ (runMain envCrash (RateLimiter.mk 10 30) [candA, candB] []).state.ledger = [] := by
  decide

theorem runLoop_no_crash (env : RunEnv) (rl : RateLimiter) (A : List String)
    (hpers : ∀ ctx, (env.personalize ctx).isSome = true) :
    ∀ (cs : List EmailCandidate) (st : DriverState),
      (runLoop env rl A st cs).crashed = false := by
  intro cs
  induction cs with
  | nil => intro st; rfl
  | cons c rest ih =>
    intro st
    cases hskip : A.contains c.email with
    | true =>
      rw [runLoop_skip env rl A st c rest hskip]
      exact ih st
    | false =>
      cases hgate : rl.can_send env.today st.logs with
      | false => rw [runLoop_gate env rl A st c rest hskip hgate]
      | true =>
        obtain ⟨p, hp⟩ := Option.isSome_iff_exists.mp (hpers (mkContext env c))
        rw [runLoop_send env rl A st c rest p hskip hgate hp]
        exact ih (stepState env st c p)

theorem runLoop_status_by_transport (env : RunEnv) (rl : RateLimiter) (A : List String) :
    ∀ (cs : List EmailCandidate) (st : DriverState) (r : SendRecord),
      r ∈ (runLoop env rl A st cs).state.ledger →
      r ∈ st.ledger
      ∨ (env.senderConfigured = false ∧ r.status = "dry_run")
      ∨ (env.senderConfigured = true ∧ (r.status = "sent" ∨ r.status = "failed")) := by
  intro cs
  induction cs with
  | nil => intro st r hr; exact Or.inl hr
  | cons c rest ih =>
    intro st r hr
    cases hskip : A.contains c.email with
    | true =>
      rw [runLoop_skip env rl A st c rest hskip] at hr
      exact ih st r hr
    | false =>
      cases hgate : rl.can_send env.today st.logs with
      | false =>
        rw [runLoop_gate env rl A st c rest hskip hgate] at hr
        exact Or.inl hr
      | true =>
        cases hpers : env.personalize (mkContext env c) with
        | none =>
          rw [runLoop_crash env rl A st c rest hskip hgate hpers] at hr
          exact Or.inl hr
        | some p =>
          rw [runLoop_send env rl A st c rest p hskip hgate hpers] at hr
          rcases ih (stepState env st c p) r hr with h | h | h
          · simp only [stepState, List.mem_append, List.mem_singleton] at h
            rcases h with h | h
            · exact Or.inl h
            · rw [h]
              cases hsc : env.senderConfigured with
              | false =>
                refine Or.inr (Or.inl ⟨rfl, ?_⟩)
                simp [stepRecord, sendStatus, hsc]
              | true =>
                refine Or.inr (Or.inr ⟨rfl, ?_⟩)
                simp only [stepRecord, sendStatus, hsc]
                cases env.sendOutcome c.email p.subject (p.body ++ env.footer) <;> simp
          · exact Or.inr (Or.inl h)
          · exact Or.inr (Or.inr h)

/-- Shape of a ledger record with the status erased: everything the loop
control flow can observe about it. -/
def recordKey (r : SendRecord) : String × String × String :=
  (r.email, r.company, r.timestamp)

/-- Two driver states that agree on everything except record statuses. -/
def SameShape (st1 st2 : DriverState) : Prop :=
  st1.ledger.map recordKey = st2.ledger.map recordKey
  ∧ st1.logs = st2.logs
  ∧ st1.sends = st2.sends
  ∧ st1.personalizations = st2.personalizations

theorem runLoop_transport_independent (env : RunEnv)
    (g : String → String → String → Bool) (rl : RateLimiter) (A : List String) :
    ∀ (cs : List EmailCandidate) (st1 st2 : DriverState), SameShape st1 st2 →
      (runLoop env rl A st1 cs).crashed
          = (runLoop { env with sendOutcome := g } rl A st2 cs).crashed
      ∧ SameShape (runLoop env rl A st1 cs).state
          (runLoop { env with sendOutcome := g } rl A st2 cs).state := by
  intro cs
  induction cs with
  | nil => intro st1 st2 h; exact ⟨rfl, h⟩
  | cons c rest ih =>
    intro st1 st2 h
    obtain ⟨hled, hlogs, hsends, hpersz⟩ := h
    have hlen : st1.ledger.length = st2.ledger.length := by
      have := congrArg List.length hled
      simpa using this
    cases hskip : A.contains c.email with
    | true =>
      rw [runLoop_skip env rl A st1 c rest hskip,
        runLoop_skip { env with sendOutcome := g } rl A st2 c rest hskip]
      exact ih st1 st2 ⟨hled, hlogs, hsends, hpersz⟩
    | false =>
      cases hgate : rl.can_send env.today st1.logs with
      | false =>
        have hgate2 : rl.can_send { env with sendOutcome := g }.today st2.logs = false := by
          rw [← hlogs]
          exact hgate
        rw [runLoop_gate env rl A st1 c rest hskip hgate,
          runLoop_gate { env with sendOutcome := g } rl A st2 c rest hskip hgate2]
        exact ⟨rfl, hled, hlogs, hsends, hpersz⟩
      | true =>
        have hgate2 : rl.can_send { env with sendOutcome := g }.today st2.logs = true := by
          rw [← hlogs]
          exact hgate
        have hctx : mkContext { env with sendOutcome := g } c = mkContext env c := rfl
        cases hpers : env.personalize (mkContext env c) with
        | none =>
          have hpers2 : { env with sendOutcome := g }.personalize
              (mkContext { env with sendOutcome := g } c) = none := by
            rw [hctx]
            exact hpers
          rw [runLoop_crash env rl A st1 c rest hskip hgate hpers,
            runLoop_crash { env with sendOutcome := g } rl A st2 c rest hskip hgate2 hpers2]
          exact ⟨rfl, hled, hlogs, hsends, by rw [hpersz]⟩
        | some p =>
          have hpers2 : { env with sendOutcome := g }.personalize
              (mkContext { env with sendOutcome := g } c) = some p := by
            rw [hctx]
            exact hpers
          rw [runLoop_send env rl A st1 c rest p hskip hgate hpers,
            runLoop_send { env with sendOutcome := g } rl A st2 c rest p hskip hgate2 hpers2]
          apply ih
          refine ⟨?_, ?_, ?_, ?_⟩ <;>
            simp [stepState, stepRecord, recordKey, toLogRow, hled, hlogs, hsends,
              hpersz, hlen]

/-- C7 amended: transport failures are isolated but personalization
failures are not. Whenever the personalizer is total the run never
crashes; every record the run appends is dry_run (no transport) or
sent/failed (transport configured, by the outcome of its send); and which
candidates get processed and logged is independent of the transport
outcomes (changing every send outcome changes no appended email and not
whether the run crashes), so one candidate's transport failure never
prevents the others from being processed. The counterexample shows the
original claim fails for errors raised during personalization, which sit
outside the try/except and abort the run. -/
theorem failure_isolation_amended (env : RunEnv)
    (g : String → String → String → Bool) (rl : RateLimiter)
    (cs : List EmailCandidate) (ledger0 : List SendRecord)
    (hpers : ∀ ctx, (env.personalize ctx).isSome = true) :
    (runMain env rl cs ledger0).crashed = false
    ∧ (∀ r ∈ (runMain env rl cs ledger0).state.ledger,
        r ∈ ledger0
        ∨ (env.senderConfigured = false ∧ r.status = "dry_run")
        ∨ (env.senderConfigured = true ∧ (r.status = "sent" ∨ r.status = "failed")))
    ∧ (runMain { env with sendOutcome := g } rl cs ledger0).state.ledger.map
          (fun r => r.email)
        = (runMain env rl cs ledger0).state.ledger.map (fun r => r.email)
    ∧ (runMain { env with sendOutcome := g } rl cs ledger0).crashed
        = (runMain env rl cs ledger0).crashed := by
  obtain ⟨hcr, hshape⟩ := runLoop_transport_independent env g rl (alreadySentOf ledger0)
    cs (initState ledger0) (initState ledger0) ⟨rfl, rfl, rfl, rfl⟩
  refine ⟨runLoop_no_crash env rl (alreadySentOf ledger0) hpers cs (initState ledger0),
    fun r hr => runLoop_status_by_transport env rl (alreadySentOf ledger0) cs
      (initState ledger0) r hr, ?_, hcr.symm⟩
  obtain ⟨hled, _, _, _⟩ := hshape
  have h1 := congrArg (List.map (fun k : String × String × String => k.1)) hled
  simpa [List.map_map, Function.comp, recordKey] using h1.symm

def envT : RunEnv :=
  { env0 with
      senderConfigured := true
      sendOutcome := fun r _ _ => !(r == "a@x.com") }

theorem failure_isolation_amended_witness :
    (∀ ctx, (envT.personalize ctx).isSome = true)
    ∧ ((runMain envT (RateLimiter.mk 10 30) [candA, candB] []).crashed = false
        ∧ (∀ r ∈ (runMain envT (RateLimiter.mk 10 30) [candA, candB] []).state.ledger,
            r ∈ ([] : List SendRecord)
            ∨ (envT.senderConfigured = false ∧ r.status = "dry_run")
            ∨ (envT.senderConfigured = true ∧ (r.status = "sent" ∨ r.status = "failed")))
        ∧ (runMain { envT with sendOutcome := fun _ _ _ => true }
              (RateLimiter.mk 10 30) [candA, candB] []).state.ledger.map
              (fun r => r.email)
            = (runMain envT (RateLimiter.mk 10 30) [candA, candB] []).state.ledger.map
              (fun r => r.email)
        ∧ (runMain { envT with sendOutcome := fun _ _ _ => true }
              (RateLimiter.mk 10 30) [candA, candB] []).crashed
            = (runMain envT (RateLimiter.mk 10 30) [candA, candB] []).crashed) :=
  ⟨fun ctx => rfl,
    failure_isolation_amended envT (fun _ _ _ => true) (RateLimiter.mk 10 30)
      [candA, candB] [] (fun ctx => rfl)⟩

/-! ## Claim C9: missing attachment handling -/

def worldNoFile : SmtpWorld :=
  { fileExists := fun _ => false
    fileContent := fun _ => ""
    guessType := fun _ => none
    connectOk := true
    starttlsOk := true
    loginOk := true
    sendOk := true }

def cfg587 : SmtpConfig :=
  ⟨"smtp.example.com", 587, "user", "pass", "Sender", "sender@example.com"⟩

/-- C9 counterexample: the legacy sender variant
(src/hr-outreach-automation/src/mailer/smtp_sender.py) opens the
attachment unconditionally, so with a fully healthy SMTP server but a
missing attachment file the send raises FileNotFoundError: no message is
sent and no warning is printed, contradicting the claim for this variant. -/
theorem missing_attachment_cex :
    (LegacySmtpSender.send_email worldNoFile cfg587 "a@x.com" "Subject" "Body"
        "/resumes/candidate_resume.pdf").result
      = SendResult.error SmtpError.fileNotFound
    ∧ (LegacySmtpSender.send_email worldNoFile cfg587 "a@x.com" "Subject" "Body"
        "/resumes/candidate_resume.pdf").warnings = [] := by
  decide

/-- C9 amended: in the current sender (src/src/mailer/smtp_sender.py) a
missing attachment file does not abort the send: provided the SMTP
connect, login and send steps succeed, send_email returns normally with
the message carrying no attachment, the attachment warning is among the
printed warnings, and the driver records status "sent" for a send call
that returns without error. The legacy copy of the sender raises instead
(see the counterexample). -/
theorem missing_attachment_warns_and_sends (w : SmtpWorld) (config : SmtpConfig)
    (recipient subject body attachment_path : String)
    (hfile : w.fileExists attachment_path = false)
    (hconn : w.connectOk = true)
    (hlogin : w.loginOk = true)
    (hsend : w.sendOk = true) :
    (SmtpSender.send_email w config recipient subject body attachment_path).result
      = SendResult.ok (baseMessage config recipient subject body)
    ∧ (baseMessage config recipient subject body).attachments = []
    ∧ ("[warn] Attachment not found at " ++ attachment_path
        ++ "; sending without attachment")
        ∈ (SmtpSender.send_email w config recipient subject body attachment_path).warnings
    ∧ sendStatus true true = "sent" := by
  refine ⟨?_, rfl, ?_, rfl⟩
  · simp [SmtpSender.send_email, hfile, hconn, hlogin, hsend]
  · simp only [SmtpSender.send_email, hfile, hconn, hlogin, hsend]
    simp only [Bool.false_eq_true, if_false, Bool.true_eq_false]
    split <;> simp

theorem missing_attachment_warns_and_sends_witness :
    (worldNoFile.fileExists "/resumes/candidate_resume.pdf" = false
      ∧ worldNoFile.connectOk = true
      ∧ worldNoFile.loginOk = true
      ∧ worldNoFile.sendOk = true)
    ∧ ((SmtpSender.send_email worldNoFile cfg587 "a@x.com" "Subject" "Body"
          "/resumes/candidate_resume.pdf").result
        = SendResult.ok (baseMessage cfg587 "a@x.com" "Subject" "Body")
      ∧ (baseMessage cfg587 "a@x.com" "Subject" "Body").attachments = []
      ∧ ("[warn] Attachment not found at " ++ "/resumes/candidate_resume.pdf"
          ++ "; sending without attachment")
          ∈ (SmtpSender.send_email worldNoFile cfg587 "a@x.com" "Subject" "Body"
              "/resumes/candidate_resume.pdf").warnings
      ∧ sendStatus true true = "sent") :=
  ⟨⟨rfl, rfl, rfl, rfl⟩,
    missing_attachment_warns_and_sends worldNoFile cfg587 "a@x.com" "Subject" "Body"
      "/resumes/candidate_resume.pdf" rfl rfl rfl rfl⟩
